import Mathlib

/-!
Verification of the `arxiv` crate's parsing core.

A shallow embedding of the arXiv identifier/category/stamp parsers
(`src/archive.rs`, `src/group.rs`, `src/category_id.rs`, `src/category.rs`,
`src/article_version.rs`, `src/article_id/{mod,parser,v1,v2}.rs`,
`src/identifier.rs`, `src/stamp.rs`) together with theorems settling the
specification claims.

Rust `&str` values are modelled as `List Char` (`Str`).  All string data
handled by the crate is ASCII, where UTF-8 byte order coincides with
code-point order, so the character-list model is faithful, including for
`Ord`-based comparisons.  Rust byte-slicing operations that can panic
(`&s[a..b]` with `b` out of range) are modelled explicitly: functions that
can panic return a `PRes` value with a dedicated `panicked` outcome.
-/

/-- A Rust `&str`, modelled as its list of characters. -/
abbrev Str := List Char

/-- Character data of a string literal. -/
def str (s : String) : Str := s.data

/-- Outcome of a Rust function returning `Result<A, E>` with no panicking
operations: either a value or an error. -/
inductive Res (ε α : Type) where
  | ok (a : α)
  | error (e : ε)
  deriving DecidableEq, Repr

/-- Outcome of a Rust function that may also panic (out-of-bounds slice or
index): a value, an error, or a process abort. -/
inductive PRes (ε α : Type) where
  | ok (a : α)
  | err (e : ε)
  | panicked
  deriving DecidableEq, Repr

/-- Comparison of two characters by code point; for ASCII (and in fact for
all of Unicode under UTF-8) this agrees with Rust's byte-wise `Ord` on `str`. -/
def cmpChar (a b : Char) : Ordering :=
  if a.toNat < b.toNat then .lt else if b.toNat < a.toNat then .gt else .eq

/-- Lexicographic comparison of strings, as Rust's `Ord for str`. -/
def cmpStr : Str → Str → Ordering
  | [], [] => .eq
  | [], _ :: _ => .lt
  | _ :: _, [] => .gt
  | a :: as_, b :: bs =>
    match cmpChar a b with
    | .eq => cmpStr as_ bs
    | o => o

theorem cmpChar_eq_iff (a b : Char) : cmpChar a b = .eq ↔ a = b := by
  unfold cmpChar
  constructor
  · intro h
    split at h
    · exact absurd h (by simp)
    · split at h
      · exact absurd h (by simp)
      · have : a.toNat = b.toNat := by omega
        exact Char.eq_of_val_eq (by
          have h1 : a.val.toNat = b.val.toNat := this
          exact UInt32.eq_of_val_eq (Fin.ext h1))
  · intro h; subst h; simp

theorem cmpChar_lt_trans {a b c : Char} (h1 : cmpChar a b = .lt)
    (h2 : cmpChar b c = .lt) : cmpChar a c = .lt := by
  unfold cmpChar at *
  split at h1 <;> split at h2 <;> simp_all <;> omega

theorem cmpChar_lt_irrefl (a : Char) : cmpChar a a ≠ .lt := by
  unfold cmpChar; simp

theorem cmpStr_eq_iff (a b : Str) : cmpStr a b = .eq ↔ a = b := by
  induction a generalizing b with
  | nil => cases b <;> simp [cmpStr]
  | cons x xs ih =>
    cases b with
    | nil => simp [cmpStr]
    | cons y ys =>
      simp only [cmpStr]
      rcases h : cmpChar x y with _ | _ | _
      · simp only [List.cons.injEq]
        constructor
        · intro hc; exact absurd hc (by simp)
        · rintro ⟨h1, _⟩
          rw [← cmpChar_eq_iff x y] at h1
          simp [h] at h1
      · rw [cmpChar_eq_iff] at h
        subst h
        rw [ih]
        simp
      · simp only [List.cons.injEq]
        constructor
        · intro hc; exact absurd hc (by simp)
        · rintro ⟨h1, _⟩
          rw [← cmpChar_eq_iff x y] at h1
          simp [h] at h1

theorem cmpStr_refl (a : Str) : cmpStr a a = .eq := (cmpStr_eq_iff a a).mpr rfl

theorem cmpStr_lt_trans {a b c : Str} (h1 : cmpStr a b = .lt)
    (h2 : cmpStr b c = .lt) : cmpStr a c = .lt := by
  induction a generalizing b c with
  | nil =>
    cases b with
    | nil => simpa [cmpStr] using h1
    | cons y ys => cases c with
      | nil => simp [cmpStr] at h2
      | cons z zs => simp [cmpStr]
  | cons x xs ih =>
    cases b with
    | nil => simp [cmpStr] at h1
    | cons y ys =>
      cases c with
      | nil => simp [cmpStr] at h2
      | cons z zs =>
        simp only [cmpStr] at h1 h2 ⊢
        rcases hxy : cmpChar x y with _ | _ | _ <;> rw [hxy] at h1 <;>
          rcases hyz : cmpChar y z with _ | _ | _ <;> rw [hyz] at h2 <;>
          try simp_all
        · -- x < y, y < z
          rw [cmpChar_lt_trans hxy hyz]
        · -- x < y, y = z
          rw [cmpChar_eq_iff] at hyz; subst hyz; rw [hxy]
        · -- x = y, y < z
          rw [cmpChar_eq_iff] at hxy; subst hxy; rw [hyz]
        · -- x = y, y = z
          rw [cmpChar_eq_iff] at hxy; subst hxy; rw [hyz]
          exact ih h1 h2

theorem cmpStr_lt_irrefl (a : Str) : cmpStr a a ≠ .lt := by
  rw [cmpStr_refl]; simp

/-- Source: `strLt a b` means `a` sorts strictly before `b`. -/
def strLt (a b : Str) : Prop := cmpStr a b = .lt

instance : DecidableRel strLt := fun a b => by unfold strLt; infer_instance

theorem strLt_asymm {a b : Str} (h : strLt a b) : a ≠ b := by
  intro hab; subst hab; exact cmpStr_lt_irrefl a h

/-! ## String utilities mirroring Rust `str` methods -/

/-- Rust `str::split(sep)`: splits at every occurrence of `sep`; the result is
never empty (the empty string yields `[[]]`). -/
def splitChar (sep : Char) : Str → List Str
  | [] => [[]]
  | c :: rest =>
    if c = sep then [] :: splitChar sep rest
    else
      match splitChar sep rest with
      | [] => [[c]]
      | p :: ps => (c :: p) :: ps

/-- Rust `str::split_once(sep)`: splits at the first occurrence of `sep`,
`none` if absent. -/
def splitOnce (sep : Char) : Str → Option (Str × Str)
  | [] => none
  | c :: rest =>
    if c = sep then some ([], rest)
    else (splitOnce sep rest).map (fun p => (c :: p.1, p.2))

/-- Rust `str::splitn(2, sep)` collected into a `Vec`. -/
def splitN2 (sep : Char) (s : Str) : List Str :=
  match splitOnce sep s with
  | none => [s]
  | some (a, b) => [a, b]

/-- Rust `str::find(sep)`: index of the first occurrence of `sep`. -/
def findChar (sep : Char) : Str → Option Nat
  | [] => none
  | c :: rest =>
    if c = sep then some 0
    else (findChar sep rest).map (· + 1)

theorem splitChar_ne_nil (sep : Char) (s : Str) : splitChar sep s ≠ [] := by
  induction s with
  | nil => simp [splitChar]
  | cons c rest ih =>
    simp only [splitChar]
    split
    · simp
    · rcases h : splitChar sep rest with _ | ⟨p, ps⟩
      · simp
      · simp

theorem splitChar_of_not_mem {sep : Char} {s : Str} (h : sep ∉ s) :
    splitChar sep s = [s] := by
  induction s with
  | nil => rfl
  | cons c rest ih =>
    simp only [List.mem_cons, not_or] at h
    simp only [splitChar, if_neg (Ne.symm h.1)]
    rw [ih h.2]

theorem splitChar_append_sep {sep : Char} {a b : Str} (ha : sep ∉ a) :
    splitChar sep (a ++ sep :: b) = a :: splitChar sep b := by
  induction a with
  | nil => simp [splitChar]
  | cons c rest ih =>
    simp only [List.mem_cons, not_or] at ha
    simp only [List.cons_append, splitChar, if_neg (Ne.symm ha.1), List.append_eq]
    rw [ih ha.2]

theorem splitChar_two_parts {sep : Char} {a b : Str} (ha : sep ∉ a) (hb : sep ∉ b) :
    splitChar sep (a ++ sep :: b) = [a, b] := by
  rw [splitChar_append_sep ha, splitChar_of_not_mem hb]

theorem splitOnce_eq_none_iff (sep : Char) (s : Str) :
    splitOnce sep s = none ↔ sep ∉ s := by
  induction s with
  | nil => simp [splitOnce]
  | cons c rest ih =>
    simp only [splitOnce, List.mem_cons]
    split
    · subst c; simp
    · rename_i hne
      simp only [Option.map_eq_none', ih]
      constructor
      · intro h hc
        rcases hc with hc | hc
        · exact hne hc.symm
        · exact h hc
      · intro h
        exact fun hc => h (Or.inr hc)

/-! ## Numeric parsing and formatting -/

/-- Numeric value of the digits of `s` (most significant first). -/
def digitsToNat (s : Str) : Nat :=
  s.foldl (fun acc c => 10 * acc + (c.toNat - 48)) 0

/-- Rust `str::parse::<uN>` restricted to plain digit strings (no sign):
`none` on the empty string, a non-digit, or a value above `hi`. -/
def parseBoundedNat (hi : Nat) (s : Str) : Option Nat :=
  if s ≠ [] ∧ s.all Char.isDigit then
    if digitsToNat s ≤ hi then some (digitsToNat s) else none
  else none

/-- Rust `str::parse::<u8>`. -/
def parseU8 (s : Str) : Option Nat := parseBoundedNat 255 s

/-- Rust `str::parse::<iN>` with bounds `[lo, hi]`: an optional sign followed
by one or more digits, rejecting out-of-range values. -/
def parseBoundedInt (lo hi : Int) (s : Str) : Option Int :=
  let core : Str → Bool → Option Int := fun ds neg =>
    if ds ≠ [] ∧ ds.all Char.isDigit then
      let v : Int := if neg then -(digitsToNat ds : Int) else (digitsToNat ds : Int)
      if lo ≤ v ∧ v ≤ hi then some v else none
    else none
  match s with
  | '+' :: rest => core rest false
  | '-' :: rest => core rest true
  | _ => core s false

/-- Rust `str::parse::<i16>`. -/
def parseI16 (s : Str) : Option Int := parseBoundedInt (-32768) 32767 s

/-- Rust `str::parse::<i8>`. -/
def parseI8 (s : Str) : Option Int := parseBoundedInt (-128) 127 s

/-- Decimal rendering of a natural number (Rust `{}` for unsigned values). -/
def natToStr (n : Nat) : Str := Nat.toDigits 10 n

/-- Decimal rendering of an integer (Rust `{}` / `to_string` for `iN`). -/
def intToStr (i : Int) : Str :=
  if i < 0 then '-' :: natToStr i.natAbs else natToStr i.toNat

/-- Rust `{:02}` formatting of a non-negative integer: zero-pad to width 2. -/
def pad2Int (i : Int) : Str :=
  let s := intToStr i
  List.replicate (2 - s.length) '0' ++ s

/-- Rust width formatting `{:0w}` applied to a `&str`: strings are
left-aligned and padded with the fill character (space) on the right; the
zero flag affects only numeric types. -/
def padStrWidth (w : Nat) (s : Str) : Str :=
  s ++ List.replicate (w - s.length) ' '

/-! ## Rust `slice::binary_search` on string tables -/

/-- One run of the `binary_search` loop of Rust's standard library
(`left`/`right` bounds, `mid = left + (right - left)/2`), with explicit fuel;
returns whether the target was found. -/
def bsLoop (xs : List Str) (t : Str) : Nat → Nat → Nat → Bool
  | 0, _, _ => false
  | fuel + 1, left, right =>
    if left < right then
      let mid := left + (right - left) / 2
      match cmpStr (xs.getD mid []) t with
      | .lt => bsLoop xs t fuel (mid + 1) right
      | .gt => bsLoop xs t fuel left mid
      | .eq => true
    else false

/-- Rust `xs.binary_search(&t).is_ok()` for a table of strings. -/
def bsContains (xs : List Str) (t : Str) : Bool :=
  bsLoop xs t xs.length 0 xs.length

theorem List.getD_eq_get_of_lt {l : List Str} {i : Nat} (h : i < l.length) :
    l.getD i [] = l.get ⟨i, h⟩ := by
  simp [List.getD_eq_getElem?_getD, List.getElem?_eq_getElem h]

theorem pairwise_strLt_get {xs : List Str} (hs : xs.Pairwise strLt)
    {i j : Nat} (hi : i < xs.length) (hj : j < xs.length) (hij : i < j) :
    strLt (xs.getD i []) (xs.getD j []) := by
  rw [List.getD_eq_get_of_lt hi, List.getD_eq_get_of_lt hj]
  exact (List.pairwise_iff_get.mp hs) ⟨i, hi⟩ ⟨j, hj⟩ hij

theorem bsLoop_eq_true_iff {xs : List Str} (hs : xs.Pairwise strLt) (t : Str) :
    ∀ (fuel left right : Nat), right ≤ xs.length → right - left ≤ fuel →
      (bsLoop xs t fuel left right = true ↔
        ∃ i, left ≤ i ∧ i < right ∧ xs.getD i [] = t) := by
  intro fuel
  induction fuel with
  | zero =>
    intro left right _ hf
    simp only [bsLoop]
    constructor
    · intro h; exact absurd h (by simp)
    · rintro ⟨i, h1, h2, _⟩; omega
  | succ fuel ih =>
    intro left right hr hf
    simp only [bsLoop]
    by_cases hlr : left < right
    · rw [if_pos hlr]
      set mid := left + (right - left) / 2 with hmid
      have hml : left ≤ mid := by omega
      have hmr : mid < right := by omega
      have hmx : mid < xs.length := by omega
      rcases hcmp : cmpStr (xs.getD mid []) t with _ | _ | _
      · -- element at mid < target: recurse right
        rw [ih (mid + 1) right hr (by omega)]
        constructor
        · rintro ⟨i, h1, h2, h3⟩
          exact ⟨i, by omega, h2, h3⟩
        · rintro ⟨i, h1, h2, h3⟩
          refine ⟨i, ?_, h2, h3⟩
          by_contra hlt
          have hile : i ≤ mid := by omega
          rcases Nat.lt_or_ge i mid with him | him
          · have hig := pairwise_strLt_get hs (by omega) hmx him
            rw [h3] at hig
            unfold strLt at hig
            exact absurd (cmpStr_lt_trans hcmp hig) (cmpStr_lt_irrefl _)
          · have : i = mid := by omega
            subst this
            rw [h3] at hcmp
            exact cmpStr_lt_irrefl t hcmp
      · -- element at mid = target
        simp only [true_iff]
        rw [cmpStr_eq_iff] at hcmp
        exact ⟨mid, hml, hmr, hcmp⟩
      · -- element at mid > target: recurse left
        rw [ih left mid (by omega) (by omega)]
        constructor
        · rintro ⟨i, h1, h2, h3⟩
          exact ⟨i, h1, by omega, h3⟩
        · rintro ⟨i, h1, h2, h3⟩
          refine ⟨i, h1, ?_, h3⟩
          by_contra hge
          rcases Nat.lt_or_ge mid i with him | him
          · have hlt2 := pairwise_strLt_get hs hmx (by omega) him
            rw [h3] at hlt2
            unfold strLt at hlt2
            rw [hlt2] at hcmp
            exact absurd hcmp (by simp)
          · have : i = mid := by omega
            subst this
            rw [h3] at hcmp
            rw [cmpStr_refl] at hcmp
            exact absurd hcmp (by simp)
    · rw [if_neg hlr]
      constructor
      · intro h; exact absurd h (by simp)
      · rintro ⟨i, h1, h2, _⟩; omega

theorem bsContains_iff_mem {xs : List Str} (hs : xs.Pairwise strLt) (t : Str) :
    bsContains xs t = true ↔ t ∈ xs := by
  unfold bsContains
  rw [bsLoop_eq_true_iff hs t xs.length 0 xs.length (Nat.le_refl _) (by omega)]
  constructor
  · rintro ⟨i, _, h2, h3⟩
    rw [List.getD_eq_get_of_lt h2] at h3
    exact h3 ▸ List.get_mem xs i h2
  · intro hmem
    rcases List.mem_iff_get.mp hmem with ⟨⟨i, hi⟩, hget⟩
    exact ⟨i, Nat.zero_le i, hi, by rw [List.getD_eq_get_of_lt hi]; exact hget⟩

/-! ## Archives and groups (`src/archive.rs`, `src/group.rs`; the enums in
`src/category.rs` are textually identical and are shared). -/

namespace Arxiv

/-- Source: `Archive` enum of `src/archive.rs` (identical in `src/category.rs`). -/
inductive Archive where
  | AstroPh | CondMat | Cs | Econ | Eess | GrQc | HepEx | HepLat | HepPh
  | HepTh | MathPh | Math | Nlin | NuclEx | NuclTh | Physics | QBio | QFin
  | QuantPh | Stat
  deriving DecidableEq, Repr

/-- Source: `Group` enum of `src/group.rs` (identical in `src/category.rs`). -/
inductive Group where
  | Cs | Econ | Eess | Math | Physics | QBio | QFin | Stat
  deriving DecidableEq, Repr

/-- Source: `impl From<Archive> for Group` (`src/group.rs`). -/
def Group.fromArchive : Archive → Group
  | .Cs => .Cs
  | .Econ => .Econ
  | .Eess => .Eess
  | .Math => .Math
  | .AstroPh | .CondMat | .GrQc | .HepEx | .HepLat | .HepPh | .HepTh
  | .MathPh | .Nlin | .NuclEx | .NuclTh | .Physics | .QuantPh => .Physics
  | .QBio => .QBio
  | .QFin => .QFin
  | .Stat => .Stat

/-- Source: `impl Display for Archive` (`src/archive.rs`). -/
def Archive.displayStr : Archive → Str
  | .AstroPh => str "astro-ph"
  | .CondMat => str "cond-mat"
  | .Cs => str "cs"
  | .Econ => str "econ"
  | .Eess => str "eess"
  | .GrQc => str "gr-qc"
  | .HepEx => str "hep-ex"
  | .HepLat => str "hep-lat"
  | .HepPh => str "hep-ph"
  | .HepTh => str "hep-th"
  | .MathPh => str "math-ph"
  | .Math => str "math"
  | .Nlin => str "nlin"
  | .NuclEx => str "nucl-ex"
  | .NuclTh => str "nucl-th"
  | .Physics => str "physics"
  | .QBio => str "q-bio"
  | .QFin => str "q-fin"
  | .QuantPh => str "quant-ph"
  | .Stat => str "stat"

/-- Source: `impl FromStr for Archive` (`src/archive.rs`): exact case-sensitive match. -/
def Archive.fromStr (s : Str) : Option Archive :=
  if s = str "astro-ph" then some .AstroPh
  else if s = str "cond-mat" then some .CondMat
  else if s = str "cs" then some .Cs
  else if s = str "econ" then some .Econ
  else if s = str "eess" then some .Eess
  else if s = str "gr-qc" then some .GrQc
  else if s = str "hep-ex" then some .HepEx
  else if s = str "hep-lat" then some .HepLat
  else if s = str "hep-ph" then some .HepPh
  else if s = str "hep-th" then some .HepTh
  else if s = str "math-ph" then some .MathPh
  else if s = str "math" then some .Math
  else if s = str "nlin" then some .Nlin
  else if s = str "nucl-ex" then some .NuclEx
  else if s = str "nucl-th" then some .NuclTh
  else if s = str "physics" then some .Physics
  else if s = str "q-bio" then some .QBio
  else if s = str "q-fin" then some .QFin
  else if s = str "quant-ph" then some .QuantPh
  else if s = str "stat" then some .Stat
  else none

/-- Source: `Archive::COMPSCI_TABLE` (`src/archive.rs`; repeated verbatim in
`src/category_id.rs`). -/
def COMPSCI_TABLE : List Str :=
  [str "AI", str "AR", str "CC", str "CE", str "CG", str "CL", str "CR",
   str "CV", str "CY", str "DB", str "DC", str "DL", str "DM", str "DS",
   str "ET", str "FL", str "GL", str "GR", str "GT", str "HC", str "IR",
   str "IT", str "LG", str "LO", str "MA", str "MM", str "MS", str "NA",
   str "NI", str "OH", str "OS", str "PF", str "PL", str "RO", str "SC",
   str "SD", str "SE", str "SI", str "SY"]

/-- Source: `Archive::MATH_TABLE` (`src/archive.rs`; repeated in `src/category_id.rs`). -/
def MATH_TABLE : List Str :=
  [str "AC", str "AG", str "AP", str "AT", str "CA", str "CO", str "CT",
   str "CV", str "DG", str "DS", str "FA", str "GM", str "GN", str "GR",
   str "GT", str "HO", str "IT", str "KT", str "LO", str "MG", str "MP",
   str "NA", str "NT", str "OA", str "OC", str "PR", str "QA", str "RA",
   str "RT", str "SG", str "SP", str "ST"]

/-- Source: `Archive::PHYSICS_TABLE` (`src/archive.rs`; repeated in
`src/category_id.rs`). -/
def PHYSICS_TABLE : List Str :=
  [str "acc-ph", str "ao-ph", str "app-ph", str "atm-clus", str "atom-ph",
   str "bio-ph", str "chem-ph", str "class-ph", str "comp-ph", str "data-an",
   str "ed-pn", str "flu-dyn", str "gen-ph", str "geo-ph", str "hist-ph",
   str "ins-det", str "med-ph", str "optics", str "plasm-ph", str "pop-ph",
   str "soc-ph", str "space-ph"]

/-- Body of the per-archive subject validity `match`.  The same match
expression appears verbatim in `Archive::is_valid_subject` (`src/archive.rs`),
`CategoryId::try_new` (`src/category_id.rs`) and `CategoryId::try_new`
(`src/category.rs`); it is factored here once. -/
def validSubjectMatch (archive : Archive) (subject : Str) : Bool :=
  match archive with
  | .AstroPh =>
    subject = str "CO" ∨ subject = str "EP" ∨ subject = str "GA" ∨
    subject = str "HE" ∨ subject = str "IM" ∨ subject = str "SR"
  | .CondMat =>
    subject = str "dis-nn" ∨ subject = str "mes-hall" ∨
    subject = str "mtrl-sci" ∨ subject = str "other" ∨
    subject = str "quant-gas" ∨ subject = str "soft" ∨
    subject = str "stat-mech" ∨ subject = str "str-el" ∨
    subject = str "supr-con"
  | .Cs => bsContains COMPSCI_TABLE subject
  | .Econ => subject = str "EM" ∨ subject = str "GN" ∨ subject = str "TH"
  | .Eess =>
    subject = str "AS" ∨ subject = str "IV" ∨ subject = str "SP" ∨
    subject = str "SY"
  | .GrQc => subject.isEmpty
  | .HepEx => subject.isEmpty
  | .HepLat => subject.isEmpty
  | .HepPh => subject.isEmpty
  | .HepTh => subject.isEmpty
  | .MathPh => subject.isEmpty
  | .Math => bsContains MATH_TABLE subject
  | .Nlin =>
    subject = str "AO" ∨ subject = str "CD" ∨ subject = str "CG" ∨
    subject = str "PS" ∨ subject = str "SI"
  | .NuclEx => subject.isEmpty
  | .NuclTh => subject.isEmpty
  | .Physics => bsContains PHYSICS_TABLE subject
  | .QBio =>
    subject = str "BM" ∨ subject = str "CB" ∨ subject = str "GN" ∨
    subject = str "MN" ∨ subject = str "NC" ∨ subject = str "OT" ∨
    subject = str "PE" ∨ subject = str "QM" ∨ subject = str "SC" ∨
    subject = str "TO"
  | .QFin =>
    subject = str "CP" ∨ subject = str "EC" ∨ subject = str "GN" ∨
    subject = str "MF" ∨ subject = str "PM" ∨ subject = str "PR" ∨
    subject = str "RM" ∨ subject = str "ST" ∨ subject = str "SR"
  | .QuantPh => subject.isEmpty
  | .Stat =>
    subject = str "AP" ∨ subject = str "CO" ∨ subject = str "ME" ∨
    subject = str "ML" ∨ subject = str "OT" ∨ subject = str "TH"

/-- Source: `Archive::is_valid_subject` (`src/archive.rs`). -/
def Archive.is_valid_subject (archive : Archive) (subject : Str) : Bool :=
  validSubjectMatch archive subject

/-- Source: `Archive::contains_subjects` (`src/archive.rs`). -/
def Archive.containsSubjects (a : Archive) : Bool :=
  match a with
  | .Cs | .GrQc | .HepEx | .HepLat | .HepPh | .HepTh | .MathPh | .NuclEx
  | .NuclTh | .QuantPh => true
  | _ => false

/-- Source: `Archive::can_omit_subjects` (`src/archive.rs`). -/
def Archive.canOmitSubjects (a : Archive) : Bool :=
  match a with
  | .Physics | .CondMat => true
  | _ => false


/-! ## Category identifiers (`src/category_id.rs`) -/

/-- Source: `CategoryIdError` (`src/category_id.rs`). -/
inductive CategoryIdError where
  | ExpectedSubject
  | InvalidArchive (s : Str)
  | InvalidArchiveSubject (archive : Archive) (s : Str)
  deriving DecidableEq, Repr

/-- Source: `CategoryId` (`src/category_id.rs`): group (derived), archive and
subject slice. -/
structure CategoryId where
  group : Group
  archive : Archive
  subject : Str
  deriving DecidableEq, Repr

/-- Source: `CategoryId::try_new` (`src/category_id.rs`): validates the subject with
the inline per-archive match (`validSubjectMatch`) and, on success, constructs
the value with the group derived from the archive. -/
def CategoryId.tryNew (archive : Archive) (subject : Str) : Option CategoryId :=
  if validSubjectMatch archive subject then
    some ⟨Group.fromArchive archive, archive, subject⟩
  else none

/-- Source: `impl Display for CategoryId` (`src/category_id.rs`): always
`"{archive}.{subject}"`, including when the subject is empty. -/
def CategoryId.displayStr (c : CategoryId) : Str :=
  c.archive.displayStr ++ '.' :: c.subject

/-- Source: `impl TryFrom<&str> for CategoryId` (`src/category_id.rs`): split on `.`,
demand exactly two parts and a non-empty subject, then parse the archive and
validate via `try_new`. -/
def CategoryId.tryFrom (s : Str) : Res CategoryIdError CategoryId :=
  if (splitChar '.' s).length ≠ 2 then .error .ExpectedSubject
  else if ((splitChar '.' s).getD 1 []).isEmpty then .error .ExpectedSubject
  else
    match Archive.fromStr ((splitChar '.' s).getD 0 []) with
    | none => .error (.InvalidArchive ((splitChar '.' s).getD 0 []))
    | some archive =>
      match CategoryId.tryNew archive ((splitChar '.' s).getD 1 []) with
      | some c => .ok c
      | none =>
        .error (.InvalidArchiveSubject archive ((splitChar '.' s).getD 1 []))

/-- Source: `CategoryId::parse_bracketed` (`src/category_id.rs`). -/
def CategoryId.parseBracketed (s : Str) : Option CategoryId :=
  let startsBracket : Bool := match s with | '[' :: _ => true | _ => false
  let endsBracket : Bool := match s.getLast? with | some ']' => true | _ => false
  if startsBracket && endsBracket then
    match CategoryId.tryFrom (s.drop 1).dropLast with
    | .ok c => some c
    | .error _ => none
  else none

/-! ## Article versions (`src/article_version.rs`) -/

/-- Source: `ArticleVersion` (`src/article_version.rs`; the identical enum also
appears in `src/identifier.rs`). -/
inductive ArticleVersion where
  | Latest
  | Num (n : Nat)
  deriving DecidableEq, Repr

/-- Source: `impl Display for ArticleVersion`: empty for `Latest`, `"v{n}"` for
`Num n`. -/
def ArticleVersion.displayStr : ArticleVersion → Str
  | .Latest => []
  | .Num v => 'v' :: natToStr v

/-- Modelled from the spec: the `FromStr` implementation for `ArticleVersion`
is called by `ArticleIdParser::parse` (`src/article_id/parser.rs`, line 106)
but is absent from `src/`.  Per spec section 4.3: the empty string parses as
`Latest`; otherwise the input must be a literal `v` followed by one or more
ASCII digits parseable as an unsigned 8-bit integer, yielding `Num`; any
other shape is a syntax error. -/
def ArticleVersion.fromStr (s : Str) : Res Unit ArticleVersion :=
  match s with
  | [] => .ok .Latest
  | 'v' :: ds =>
    match parseU8 ds with
    | some n => .ok (.Num n)
    | none => .error ()
  | _ => .error ()

/-- Source: `parse_numbervv` (`src/article_version.rs`; duplicated verbatim in
`src/identifier.rs`): splits `"number{vV}"` into the 4-5 digit number and an
optional version, ignoring any other trailing text. -/
def parse_numbervv (s : Str) : Option (Str × ArticleVersion) :=
  if s.length < 4 then none
  else
    let first4 := s.take 4
    if ¬ first4.all Char.isDigit then none
    else
      let number :=
        match s.drop 4 with
        | c :: _ => if c.isDigit then s.take 5 else s.take 4
        | [] => s.take 4
      if number.length < s.length then
        match s.drop number.length with
        | 'v' :: afterV =>
          let consume := afterV.takeWhile Char.isDigit
          match parseU8 consume with
          | some v => some (number, .Num v)
          | none => none
        | _ => some (number, .Latest)
      else some (number, .Latest)

/-! ## Article identifiers, new type family (`src/article_id/`) -/

/-- Source: `ArticleIdScheme` (`src/article_id/mod.rs`). -/
inductive ArticleIdScheme where
  | V1
  | V2
  deriving DecidableEq, Repr

/-- Source: `ArticleIdErrorKind` (`src/article_id/mod.rs`). -/
inductive ArticleIdErrorKind where
  | ExpectedPrefix
  | ExpectedCategory
  | ExpectedSlash
  | ExpectedDot
  | ExpectedNumberV1
  | ExpectedNumberV2
  | InvalidVersion
  | InvalidMonth
  | InvalidYear
  | InvalidId
  deriving DecidableEq, Repr

/-- Source: `ArticleIdV1` (`src/article_id/v1.rs`). -/
structure ArticleIdV1 where
  category : CategoryId
  year : Int
  month : Int
  number : Str
  version : ArticleVersion
  deriving DecidableEq, Repr

/-- Source: `ArticleIdV2` (`src/article_id/v2.rs`). -/
structure ArticleIdV2 where
  year : Int
  month : Int
  number : Str
  version : ArticleVersion
  deriving DecidableEq, Repr

/-- Source: `ArticleId` (`src/article_id/mod.rs`). -/
inductive ArticleId where
  | V1 (id : ArticleIdV1)
  | V2 (id : ArticleIdV2)
  deriving DecidableEq, Repr

/-- Source: `ArticleIdV1::try_new` (`src/article_id/v1.rs`): year in [1991, 2007],
month in [1, 12], number exactly 3 ASCII digits. -/
def ArticleIdV1.tryNew (category : CategoryId) (year month : Int)
    (number : Str) (version : ArticleVersion) :
    Res ArticleIdErrorKind ArticleIdV1 :=
  if ¬ (1991 ≤ year ∧ year ≤ 2007) then .error .InvalidYear
  else if ¬ (1 ≤ month ∧ month ≤ 12) then .error .InvalidMonth
  else if ¬ (number.length = 3 ∧ number.all Char.isDigit) then
    .error .ExpectedNumberV1
  else .ok ⟨category, year, month, number, version⟩

/-- Source: `ArticleIdV2::try_new` (`src/article_id/v2.rs`): year in [2007, 2099],
month in [1, 12], number 4 or 5 ASCII digits. -/
def ArticleIdV2.tryNew (year month : Int) (number : Str)
    (version : ArticleVersion) : Res ArticleIdErrorKind ArticleIdV2 :=
  if ¬ (2007 ≤ year ∧ year ≤ 2099) then .error .InvalidYear
  else if ¬ (1 ≤ month ∧ month ≤ 12) then .error .InvalidMonth
  else if ¬ ((4 ≤ number.length ∧ number.length ≤ 5)
      ∧ number.all Char.isDigit) then .error .InvalidId
  else .ok ⟨year, month, number, version⟩

/-- Source: `ArticleIdParser::full_year` (`src/article_id/parser.rs`). -/
def fullYear (scheme : ArticleIdScheme) (year : Int) : Int :=
  match scheme with
  | .V1 => if 91 ≤ year ∧ year ≤ 99 then 1900 + year else 2000 + year
  | .V2 => 2000 + year

/-- Source: `ArticleIdParser::parse_number` (`src/article_id/parser.rs`).  The Rust
code slices `&s[..3]`, `&s[0..1]` and `&s[1..5]` without bounds checks;
inputs shorter than those ranges abort the process, modelled by `panicked`. -/
def parseNumber (scheme : ArticleIdScheme) (s : Str) :
    PRes ArticleIdErrorKind (Str × Str) :=
  match scheme with
  | .V1 =>
    if s.length < 3 then .panicked
    else if ¬ (s.take 3).all Char.isDigit then .err .ExpectedNumberV1
    else .ok (s.take 3, s.drop 3)
  | .V2 =>
    if s.length < 1 then .panicked
    else if s.take 1 ≠ str "." then .err .ExpectedDot
    else if s.length < 5 then .panicked
    else if ¬ ((s.drop 1).take 4).all Char.isDigit then .err .ExpectedNumberV2
    else
      match s.drop 5 with
      | c :: _ =>
        if c.isDigit then .ok ((s.drop 1).take 5, s.drop 6)
        else .ok ((s.drop 1).take 4, s.drop 5)
      | [] => .ok ((s.drop 1).take 4, s.drop 5)

/-- Shared tail of `ArticleIdParser::parse` (`src/article_id/parser.rs`,
lines 88-118): after the category question is settled, parse year, month,
number and version from `restStr` and run the validating constructor.  The
Rust code slices `rest_str[..2]` and `rest_str[2..4]` unconditionally, so
inputs shorter than 2 (resp. 4) characters abort the process. -/
def parseTail (category : Option CategoryId) (restStr : Str) :
    PRes ArticleIdErrorKind ArticleId :=
  let scheme : ArticleIdScheme := if category.isSome then .V1 else .V2
  if restStr.length < 2 then .panicked
  else
    match parseI16 (restStr.take 2) with
    | none => .err .InvalidYear
    | some year2 =>
      let year4 := fullYear scheme year2
      if restStr.length < 4 then .panicked
      else
        match parseI8 ((restStr.drop 2).take 2) with
        | none => .err .InvalidMonth
        | some month =>
          match parseNumber scheme (restStr.drop 4) with
          | .panicked => .panicked
          | .err e => .err e
          | .ok (numberVal, restAfter) =>
            match ArticleVersion.fromStr restAfter with
            | .error _ => .err .InvalidVersion
            | .ok version =>
              match scheme, category with
              | .V1, some cat =>
                match ArticleIdV1.tryNew cat year4 month numberVal version with
                | .ok v => .ok (.V1 v)
                | .error e => .err e
              | .V1, none => .panicked
              | .V2, _ =>
                match ArticleIdV2.tryNew year4 month numberVal version with
                | .ok v => .ok (.V2 v)
                | .error e => .err e

/-- Source: `ArticleIdParser::parse` (`src/article_id/parser.rs`): prefix check, the
one-character lookahead, scheme dispatch (note the `None | Some(V1)` match
arm), then the shared tail. -/
def parserParse (scheme : Option ArticleIdScheme) (id : Str) :
    PRes ArticleIdErrorKind ArticleId :=
  match splitOnce ':' id with
  | none => .err .ExpectedPrefix
  | some (pfx, afterPfx) =>
    if pfx ≠ str "arXiv" then .err .ExpectedPrefix
    else
      let isLikelyCategory : Bool :=
        match afterPfx with
        | c :: _ => c.isAlpha
        | [] => false
      match scheme with
      | none | some .V1 =>
        if isLikelyCategory = false then .err .ExpectedCategory
        else
          match findChar '/' afterPfx with
          | none => .err .ExpectedSlash
          | some slashIdx =>
            match CategoryId.tryFrom (afterPfx.take slashIdx) with
            | .error _ => .err .ExpectedCategory
            | .ok cat => parseTail (some cat) (afterPfx.drop (slashIdx + 1))
      | some .V2 =>
        if isLikelyCategory = true then .err .ExpectedCategory
        else parseTail none afterPfx

/-- Source: `impl TryFrom<&str> for ArticleId` (`src/article_id/mod.rs`): parse with
the scheme left ambiguous (`ArticleIdParser::new(None)`). -/
def ArticleId.tryFrom (s : Str) : PRes ArticleIdErrorKind ArticleId :=
  parserParse none s

/-- Source: `impl TryFrom<&str> for ArticleIdV1` (`src/article_id/v1.rs`). -/
def ArticleIdV1.tryFromStr (s : Str) : PRes ArticleIdErrorKind ArticleId :=
  parserParse (some .V1) s

/-- Source: `impl TryFrom<&str> for ArticleIdV2` (`src/article_id/v2.rs`). -/
def ArticleIdV2.tryFromStr (s : Str) : PRes ArticleIdErrorKind ArticleId :=
  parserParse (some .V2) s


/-! ## Borrowed identifier family used by the stamp (`src/identifier.rs`).
`src/stamp.rs` imports these types under the names `ArxivId` /
`ArxivIdError`; `src/identifier.rs` is the definition in `src/` matching
that interface (lifetime-parametrised struct with `TryFrom<&str>`). -/

/-- Source: `ArticleIdError` of `src/identifier.rs` (imported by `src/stamp.rs` as
`ArxivIdError`). -/
inductive ArxivIdError where
  | ExpectedBeginningLiteral
  | ExpectedNumberVv
  | InvalidMonth
  | InvalidYear
  | InvalidId
  deriving DecidableEq, Repr

/-- Source: `ArticleId` of `src/identifier.rs` (imported by `src/stamp.rs` as
`ArxivId`). -/
structure ArxivId where
  year : Int
  month : Int
  number : Str
  version : ArticleVersion
  deriving DecidableEq, Repr

/-- Source: `ArticleId::try_new` of `src/identifier.rs`: year in [2007, 2099], month
in [1, 12], number 4 or 5 ASCII digits. -/
def ArxivId.tryNew (year month : Int) (number : Str)
    (version : ArticleVersion) : Res ArxivIdError ArxivId :=
  if ¬ (2007 ≤ year ∧ year ≤ 2099) then .error .InvalidYear
  else if ¬ (1 ≤ month ∧ month ≤ 12) then .error .InvalidMonth
  else if ¬ ((4 ≤ number.length ∧ number.length ≤ 5)
      ∧ number.all Char.isDigit) then .error .InvalidId
  else .ok ⟨year, month, number, version⟩

/-- Source: `impl TryFrom<&str> for ArticleId` of `src/identifier.rs`: split on `:`
(exactly two parts, first `"arXiv"`), split the remainder on `.` (exactly two
parts), slice the two-digit year and month out of the date part (the raw
slices `date[0..2]` and `date[2..4]` abort the process when the date part is
shorter), run `parse_numbervv` on the rest, and validate. -/
def ArxivId.tryFrom (value : Str) : PRes ArxivIdError ArxivId :=
  let parts := splitChar ':' value
  if parts.length ≠ 2 || parts.getD 0 [] ≠ str "arXiv" then
    .err .ExpectedBeginningLiteral
  else
    let innerParts := splitChar '.' (parts.getD 1 [])
    if innerParts.length ≠ 2 then .err .ExpectedNumberVv
    else
      let date := innerParts.getD 0 []
      let numbervv := innerParts.getD 1 []
      if date.length < 2 then .panicked
      else
        match parseI16 (date.take 2) with
        | none => .err .InvalidYear
        | some year =>
          if date.length < 4 then .panicked
          else
            match parseI8 ((date.drop 2).take 2) with
            | none => .err .InvalidMonth
            | some month =>
              match parse_numbervv numbervv with
              | none => .err .ExpectedNumberVv
              | some (number, version) =>
                match ArxivId.tryNew (year + 2000) month number version with
                | .ok v => .ok v
                | .error e => .err e

/-- Source: `ArticleId::as_unique_ident` of `src/identifier.rs`: render the year's
last two digits, the zero-padded month, a dot and the number (string width
formatting pads with spaces on the right, a no-op here since the number
already has 4 or 5 digits). -/
def ArxivId.asUniqueIdent (id : ArxivId) : Str :=
  let halfYear := (intToStr id.year).drop 2
  if id.number.length = 4 then
    padStrWidth 2 halfYear ++ pad2Int id.month ++ '.' :: padStrWidth 4 id.number
  else
    padStrWidth 2 halfYear ++ pad2Int id.month ++ '.' :: padStrWidth 5 id.number

/-- Source: `impl Display for ArticleId` of `src/identifier.rs`:
`"arXiv:{unique_ident}{version}"`. -/
def ArxivId.displayStr (id : ArxivId) : Str :=
  str "arXiv:" ++ id.asUniqueIdent ++ id.version.displayStr

/-! ## Category family used by the stamp (`src/category.rs`).  `src/stamp.rs`
imports it as `ArxivCategoryId`; its `Archive` and `Group` enums are
identical to the shared ones above. -/

/-- Source: `CategoryId` of `src/category.rs` (imported by `src/stamp.rs` as
`ArxivCategoryId`). -/
structure ArxivCategoryId where
  group : Group
  archive : Archive
  subject : Str
  deriving DecidableEq, Repr

/-- Source: `CategoryId::try_new` of `src/category.rs`: same per-archive validity
match as `src/category_id.rs` (`validSubjectMatch`), returning `Option`. -/
def ArxivCategoryId.tryNew (archive : Archive) (subject : Str) :
    Option ArxivCategoryId :=
  if validSubjectMatch archive subject then
    some ⟨Group.fromArchive archive, archive, subject⟩
  else none

/-- Source: `impl TryFrom<&str> for CategoryId` of `src/category.rs`: split on `.`,
exactly two parts (the subject may be empty here — there is no emptiness
check in this file), parse the archive, validate with `try_new`. -/
def ArxivCategoryId.fromStr (s : Str) : Res Unit ArxivCategoryId :=
  let parts := splitChar '.' s
  if parts.length ≠ 2 then .error ()
  else
    match Archive.fromStr (parts.getD 0 []) with
    | none => .error ()
    | some archive =>
      match ArxivCategoryId.tryNew archive (parts.getD 1 []) with
      | some c => .ok c
      | none => .error ()

/-- Source: `impl Display for CategoryId` of `src/category.rs`:
`"{archive}.{subject}"`. -/
def ArxivCategoryId.displayStr (c : ArxivCategoryId) : Str :=
  c.archive.displayStr ++ '.' :: c.subject

/-! ## Dates (the external `time` crate, as used by `src/stamp.rs`) -/

/-- Modelled from the spec: `time::Month` of the external `time` crate is
absent from `src/`; only the parts `src/stamp.rs` uses are embedded. -/
inductive Month where
  | January | February | March | April | May | June
  | July | August | September | October | November | December
  deriving DecidableEq, Repr

/-- A calendar date as `time::Date` (year, month, day). -/
structure Date where
  year : Int
  month : Month
  day : Nat
  deriving DecidableEq, Repr

/-- Gregorian leap-year rule. -/
def isLeapYear (y : Int) : Bool :=
  y % 4 = 0 && (y % 100 ≠ 0 || y % 400 = 0)

/-- Days in a month, with February depending on the leap-year rule. -/
def daysInMonth (y : Int) : Month → Nat
  | .January => 31
  | .February => if isLeapYear y then 29 else 28
  | .March => 31
  | .April => 30
  | .May => 31
  | .June => 30
  | .July => 31
  | .August => 31
  | .September => 30
  | .October => 31
  | .November => 30
  | .December => 31

/-- The three-letter month names accepted by `time`'s `[month repr:short]`
parsing component. -/
def monthFromAbbr (s : Str) : Option Month :=
  if s = str "Jan" then some .January
  else if s = str "Feb" then some .February
  else if s = str "Mar" then some .March
  else if s = str "Apr" then some .April
  else if s = str "May" then some .May
  else if s = str "Jun" then some .June
  else if s = str "Jul" then some .July
  else if s = str "Aug" then some .August
  else if s = str "Sep" then some .September
  else if s = str "Oct" then some .October
  else if s = str "Nov" then some .November
  else if s = str "Dec" then some .December
  else none

/-- Modelled from the spec: `parse_date` of `src/stamp.rs` delegates to the
external `time` crate (absent from `src/`) with the format description
`"[day padding:none] [month repr:short] [year]"`; per spec section 4.5 the
grammar is a 1-2 digit unpadded day, a space, a 3-letter English month
abbreviation, a space, a 4-digit year, with no trailing text, and the
day/month/year triple calendar-validated. -/
def parseDate (s : Str) : Res Unit Date :=
  let dcount := min 2 (s.takeWhile Char.isDigit).length
  if dcount = 0 then .error ()
  else
    let day := digitsToNat (s.take dcount)
    match s.drop dcount with
    | ' ' :: r1 =>
      (match monthFromAbbr (r1.take 3) with
      | none => .error ()
      | some mon =>
        match r1.drop 3 with
        | ' ' :: r2 =>
          if r2.length = 4 ∧ r2.all Char.isDigit then
            let year : Int := (digitsToNat r2 : Int)
            if 1 ≤ day ∧ day ≤ daysInMonth year mon then .ok ⟨year, mon, day⟩
            else .error ()
          else .error ()
        | _ => .error ())
    | _ => .error ()

/-- Source: `month_as_abbr` (`src/stamp.rs`): note the four-letter renderings of
June, July and September. -/
def monthAsAbbr : Month → Str
  | .January => str "Jan"
  | .February => str "Feb"
  | .March => str "Mar"
  | .April => str "Apr"
  | .May => str "May"
  | .June => str "June"
  | .July => str "July"
  | .August => str "Aug"
  | .September => str "Sept"
  | .October => str "Oct"
  | .November => str "Nov"
  | .December => str "Dec"

/-! ## Stamps (`src/stamp.rs`) -/

/-- Source: `ArxivStampError` (`src/stamp.rs`); the `time` parse-error payload of
`InvalidDate` is not tracked. -/
inductive ArxivStampError where
  | InvalidArxivId (e : ArxivIdError)
  | InvalidDate
  | InvalidCategory
  | NotEnoughComponents
  deriving DecidableEq, Repr

/-- Source: `ArxivStamp` (`src/stamp.rs`): identifier, optional category, date. -/
structure ArxivStamp where
  id : ArxivId
  category : Option ArxivCategoryId
  submitted : Date
  deriving DecidableEq, Repr

/-- Rust `str::starts_with('[')`. -/
def startsBracket (s : Str) : Bool :=
  match s with
  | '[' :: _ => true
  | _ => false

/-- Source: `brackets_match` (`src/stamp.rs`). -/
def bracketsMatch (s : Str) : Bool :=
  startsBracket s && (match s.getLast? with | some ']' => true | _ => false)

/-- Source: `parse_brackets` (`src/stamp.rs`): the interior `s[1..len-1]` of a
well-bracketed string. -/
def parseBrackets (s : Str) : Res Unit Str :=
  if bracketsMatch s then .ok (s.drop 1).dropLast else .error ()

/-- First component of `parts[1].splitn(2, ' ')` in the stamp parser:
`category_date[0]`. -/
def stampCatComp (p1 : Str) : Str :=
  match splitOnce ' ' p1 with
  | some (a, _) => a
  | none => p1

/-- Source: `impl TryFrom<&str> for ArxivStamp` (`src/stamp.rs`): `splitn(2, ' ')`,
`NotEnoughComponents` when there is no space at all; parse the identifier;
if the remainder starts with `[`, parse the bracketed category and then the
date from `category_date[1]` — an index that aborts the process when the
remainder has no further space; otherwise parse the remainder as the date
with the category absent. -/
def ArxivStamp.tryFrom (s : Str) : PRes ArxivStampError ArxivStamp :=
  match splitOnce ' ' s with
  | none => .err .NotEnoughComponents
  | some (p0, p1) =>
    match ArxivId.tryFrom p0 with
    | .panicked => .panicked
    | .err e => .err (.InvalidArxivId e)
    | .ok idv =>
      if startsBracket p1 then
        (match parseBrackets (stampCatComp p1) with
        | .error _ => .err .InvalidCategory
        | .ok interior =>
          match ArxivCategoryId.fromStr interior with
          | .error _ => .err .InvalidCategory
          | .ok cat =>
            match splitOnce ' ' p1 with
            | some (_, cd1) =>
              (match parseDate cd1 with
              | .error _ => .err .InvalidDate
              | .ok d => .ok ⟨idv, some cat, d⟩)
            | none => .panicked)
      else
        match parseDate p1 with
        | .error _ => .err .InvalidDate
        | .ok d => .ok ⟨idv, none, d⟩

/-- Source: `impl Display for ArxivStamp` (`src/stamp.rs`): the identifier, the
optional bracketed category, then `"{day} {month_abbr} {year}"` with the
day unpadded. -/
def ArxivStamp.displayStr (st : ArxivStamp) : Str :=
  let partialStamp :=
    st.id.displayStr ++
      (match st.category with
       | some c => str " [" ++ c.displayStr ++ str "]"
       | none => [])
  partialStamp ++ ' ' :: natToStr st.submitted.day ++
    ' ' :: monthAsAbbr st.submitted.month ++ ' ' :: intToStr st.submitted.year


/-! ## Helper lemmas about the tables and archives -/

theorem compsciSorted : COMPSCI_TABLE.Pairwise strLt := by decide

theorem mathSorted : MATH_TABLE.Pairwise strLt := by decide

theorem physicsSorted : PHYSICS_TABLE.Pairwise strLt := by decide

theorem compsci_no_dot : ∀ x ∈ COMPSCI_TABLE, '.' ∉ x := by decide

theorem math_no_dot : ∀ x ∈ MATH_TABLE, '.' ∉ x := by decide

theorem physics_no_dot : ∀ x ∈ PHYSICS_TABLE, '.' ∉ x := by decide

theorem archive_display_no_dot (a : Archive) : '.' ∉ a.displayStr := by
  cases a <;> decide

theorem archive_fromStr_displayStr (a : Archive) :
    Archive.fromStr a.displayStr = some a := by
  cases a <;> decide

/-- A valid non-empty subject never contains a dot: for the enumerated
archives every accepted literal is dot-free, for the table archives every
table entry is dot-free, and the empty-subject archives accept nothing
non-empty. -/
theorem valid_subject_no_dot {a : Archive} {s : Str}
    (h : validSubjectMatch a s = true) (hne : s ≠ []) : '.' ∉ s := by
  cases a
  case AstroPh =>
    rcases of_decide_eq_true h with rfl | rfl | rfl | rfl | rfl | rfl <;> decide
  case CondMat =>
    rcases of_decide_eq_true h with
      rfl | rfl | rfl | rfl | rfl | rfl | rfl | rfl | rfl <;> decide
  case Cs =>
    exact compsci_no_dot s ((bsContains_iff_mem compsciSorted s).mp h)
  case Econ =>
    rcases of_decide_eq_true h with rfl | rfl | rfl <;> decide
  case Eess =>
    rcases of_decide_eq_true h with rfl | rfl | rfl | rfl <;> decide
  case GrQc => cases s with
    | nil => exact absurd rfl hne
    | cons c t => exact absurd h (by simp [validSubjectMatch])
  case HepEx => cases s with
    | nil => exact absurd rfl hne
    | cons c t => exact absurd h (by simp [validSubjectMatch])
  case HepLat => cases s with
    | nil => exact absurd rfl hne
    | cons c t => exact absurd h (by simp [validSubjectMatch])
  case HepPh => cases s with
    | nil => exact absurd rfl hne
    | cons c t => exact absurd h (by simp [validSubjectMatch])
  case HepTh => cases s with
    | nil => exact absurd rfl hne
    | cons c t => exact absurd h (by simp [validSubjectMatch])
  case MathPh => cases s with
    | nil => exact absurd rfl hne
    | cons c t => exact absurd h (by simp [validSubjectMatch])
  case Math =>
    exact math_no_dot s ((bsContains_iff_mem mathSorted s).mp h)
  case Nlin =>
    rcases of_decide_eq_true h with rfl | rfl | rfl | rfl | rfl <;> decide
  case NuclEx => cases s with
    | nil => exact absurd rfl hne
    | cons c t => exact absurd h (by simp [validSubjectMatch])
  case NuclTh => cases s with
    | nil => exact absurd rfl hne
    | cons c t => exact absurd h (by simp [validSubjectMatch])
  case Physics =>
    exact physics_no_dot s ((bsContains_iff_mem physicsSorted s).mp h)
  case QBio =>
    rcases of_decide_eq_true h with
      rfl | rfl | rfl | rfl | rfl | rfl | rfl | rfl | rfl | rfl <;> decide
  case QFin =>
    rcases of_decide_eq_true h with
      rfl | rfl | rfl | rfl | rfl | rfl | rfl | rfl | rfl <;> decide
  case QuantPh => cases s with
    | nil => exact absurd rfl hne
    | cons c t => exact absurd h (by simp [validSubjectMatch])
  case Stat =>
    rcases of_decide_eq_true h with rfl | rfl | rfl | rfl | rfl | rfl <;> decide

theorem parseBoundedNat_eq_some_iff {hi n : Nat} {s : Str} :
    parseBoundedNat hi s = some n ↔
      s ≠ [] ∧ s.all Char.isDigit = true ∧ digitsToNat s = n ∧ n ≤ hi := by
  unfold parseBoundedNat
  split
  · rename_i hcond
    split
    · rename_i hle
      simp only [Option.some.injEq]
      constructor
      · rintro rfl
        exact ⟨hcond.1, hcond.2, rfl, hle⟩
      · rintro ⟨_, _, rfl, _⟩
        rfl
    · rename_i hle
      constructor
      · intro hc; exact absurd hc (by simp)
      · rintro ⟨_, _, rfl, hn⟩
        exact absurd hn hle
  · rename_i hcond
    constructor
    · intro hc; exact absurd hc (by simp)
    · rintro ⟨h1, h2, _, _⟩
      exact absurd ⟨h1, h2⟩ hcond


/-! ## Claim theorems -/

/-- C1: the claim says the scheme-ambiguous entry point parses inputs whose
first character after "arXiv:" is not a letter under the V2 scheme.  In the
code the `None | Some(V1)` match arm sends unknown-scheme inputs down the V1
path, so the digit-initial input "arXiv:2001.00001" is rejected with
`ExpectedCategory` (contradicting the doc-test on `ArticleIdV2` that asserts
`ArticleId::try_from("arXiv:2001.00001").is_ok()`), while the same text
parses fine when the V2 scheme is forced. -/
theorem c1_ambiguous_never_v2 :
    ArticleId.tryFrom (str "arXiv:2001.00001") = .err .ExpectedCategory
    ∧ ArticleIdV2.tryFromStr (str "arXiv:2001.00001") =
        .ok (.V2 ⟨2020, 1, str "00001", .Latest⟩) := by
  constructor <;> decide

/-- C2: the claim says every core parse is total (error results, never a
panic), including "arXiv:1501", "arXiv:1" and one-space stamp inputs.  The
code slices out of bounds on exactly those inputs: `&s[0..1]` on the empty
remainder of "arXiv:1501" (its own test expects `Err(ExpectedNumberV2)`),
`rest_str[..2]` on "arXiv:1", and `category_date[1]` on
"arXiv:2001.00001 [cs.LG]". -/
theorem c2_parsers_panic :
    ArticleIdV2.tryFromStr (str "arXiv:1501") = .panicked
    ∧ ArticleIdV2.tryFromStr (str "arXiv:1") = .panicked
    ∧ ArxivStamp.tryFrom (str "arXiv:2001.00001 [cs.LG]") = .panicked := by
  refine ⟨by decide, by decide, by decide⟩

/-- C3: the claim (and the repository's own test `from_gh_issue`) says
"arXiv:cond-mat/0001448v1" parses as an old-scheme identifier with the
subject-less category `cond-mat`.  `CategoryId::try_from` demands exactly
two dot-separated parts with a non-empty subject, so the category text
"cond-mat" fails and the parse returns `ExpectedCategory`, under both the
ambiguous and the forced-V1 entry points. -/
theorem c3_cond_mat_rejected :
    ArticleId.tryFrom (str "arXiv:cond-mat/0001448v1") = .err .ExpectedCategory
    ∧ ArticleIdV1.tryFromStr (str "arXiv:cond-mat/0001448v1") =
        .err .ExpectedCategory := by
  constructor <;> decide

/-- C5: the claim says stamp display renders the month as a 3-letter
abbreviation and inverts parse on
"arXiv:0706.0001v1 [q-bio.CB] 1 Jun 2007".  Parsing that text succeeds, but
`month_as_abbr` renders June as the four-letter "June", so display produces
"arXiv:0706.0001v1 [q-bio.CB] 1 June 2007" — a different string that the
stamp parser itself then rejects with `InvalidDate`. -/
theorem c5_june_display_breaks_roundtrip :
    ArxivStamp.tryFrom (str "arXiv:0706.0001v1 [q-bio.CB] 1 Jun 2007") =
      .ok ⟨⟨2007, 6, str "0001", .Num 1⟩,
           some ⟨.QBio, .QBio, str "CB"⟩, ⟨2007, .June, 1⟩⟩
    ∧ ArxivStamp.displayStr
        ⟨⟨2007, 6, str "0001", .Num 1⟩,
         some ⟨.QBio, .QBio, str "CB"⟩, ⟨2007, .June, 1⟩⟩ =
        str "arXiv:0706.0001v1 [q-bio.CB] 1 June 2007"
    ∧ monthAsAbbr .June = str "June"
    ∧ ArxivStamp.tryFrom (str "arXiv:0706.0001v1 [q-bio.CB] 1 June 2007") =
        .err .InvalidDate := by
  refine ⟨by decide, by decide, by decide, by decide⟩

/-- C4 counterexample: the claim says display renders the archive token
alone when the subject is empty and that `parse ∘ display` is the identity
on every constructed `CategoryId`.  The constructible value with archive
`gr-qc` and empty subject displays as "gr-qc." (trailing dot), and parsing
that text fails with `ExpectedSubject`. -/
theorem c4_empty_subject_roundtrip_fails :
    CategoryId.tryNew .GrQc [] = some ⟨.Physics, .GrQc, []⟩
    ∧ CategoryId.displayStr ⟨.Physics, .GrQc, []⟩ = str "gr-qc."
    ∧ CategoryId.tryFrom (str "gr-qc.") = .error .ExpectedSubject := by
  refine ⟨by decide, by decide, by decide⟩

/-- C6 counterexample: the claim says every input with fewer than two spaces
yields `NotEnoughComponents`.  The one-space input
"arXiv:2001.00001 1Jan2000" instead reaches date parsing and fails with
`InvalidDate`: the zero-space check `parts.len() == 1` is the only source of
`NotEnoughComponents`. -/
theorem c6_one_space_not_notenough :
    (str "arXiv:2001.00001 1Jan2000").count ' ' = 1
    ∧ ArxivStamp.tryFrom (str "arXiv:2001.00001 1Jan2000") =
        .err .InvalidDate := by
  refine ⟨by decide, by decide⟩

/-- C7 counterexample: the claim says a stamp without a bracketed category
fails to parse.  "arXiv:2001.00001 1 Jan 2000" parses successfully with an
absent category (matching the repository's own test
`parse_stamp_without_category`). -/
theorem c7_absent_category_parses :
    ArxivStamp.tryFrom (str "arXiv:2001.00001 1 Jan 2000") =
      .ok ⟨⟨2020, 1, str "00001", .Latest⟩, none, ⟨2000, .January, 1⟩⟩ := by
  decide

/-- C8 counterexample: the claim says `try_new(archive, "")` succeeds for
the two archives that may omit subjects.  In the code `try_new` merely
checks the subject against the archive's table, and the `Physics` and
`CondMat` tables contain only non-empty codes, so both calls return `None`
(and `try_new` returns an `Option`, so no `ExpectedSubject` error value is
even possible from it). -/
theorem c8_empty_subject_fails_physics_condmat :
    CategoryId.tryNew .Physics [] = none
    ∧ CategoryId.tryNew .CondMat [] = none := by
  refine ⟨by decide, by decide⟩


/-- C10: the three static subject tables are sorted in strictly ascending
lexicographic order, and for every subject string the binary-search
membership test used by `is_valid_subject` agrees with a linear scan
(list membership). -/
theorem c10_sorted_tables_binary_search :
    (COMPSCI_TABLE.Pairwise strLt ∧ MATH_TABLE.Pairwise strLt
      ∧ PHYSICS_TABLE.Pairwise strLt)
    ∧ (∀ s : Str,
        (Archive.is_valid_subject .Cs s = true ↔ s ∈ COMPSCI_TABLE)
        ∧ (Archive.is_valid_subject .Math s = true ↔ s ∈ MATH_TABLE)
        ∧ (Archive.is_valid_subject .Physics s = true ↔ s ∈ PHYSICS_TABLE)) := by
  refine ⟨⟨compsciSorted, mathSorted, physicsSorted⟩, ?_⟩
  intro s
  exact ⟨bsContains_iff_mem compsciSorted s, bsContains_iff_mem mathSorted s,
         bsContains_iff_mem physicsSorted s⟩

/-- C10 witness: the concrete subject "LG" is accepted for the cs archive. -/
theorem c10_witness : Archive.is_valid_subject .Cs (str "LG") = true :=
  ((c10_sorted_tables_binary_search.2 (str "LG")).1).mpr (by decide)

/-- C4 (amended): display always renders `"{archive}.{subject}"` — with a
trailing dot when the subject is empty, not the archive token alone — and
`parse (display c) = c` holds for every constructed `CategoryId` whose
subject is non-empty (for empty-subject values the round-trip fails, see the
counterexample). -/
theorem c4_roundtrip_nonempty_subject :
    ∀ (a : Archive) (s : Str) (c : CategoryId),
      CategoryId.tryNew a s = some c → s ≠ [] →
      CategoryId.tryFrom (CategoryId.displayStr c) = .ok c := by
  intro a s c htry hne
  unfold CategoryId.tryNew at htry
  split at htry
  case isFalse => exact absurd htry (by simp)
  case isTrue hvalid =>
    injection htry with hc
    subst hc
    have hnodot := valid_subject_no_dot hvalid hne
    have hdisp : CategoryId.displayStr ⟨Group.fromArchive a, a, s⟩ =
        a.displayStr ++ '.' :: s := rfl
    rw [hdisp]
    unfold CategoryId.tryFrom
    rw [splitChar_two_parts (archive_display_no_dot a) hnodot]
    have hsome : CategoryId.tryNew a s = some ⟨Group.fromArchive a, a, s⟩ := by
      unfold CategoryId.tryNew
      rw [if_pos hvalid]
    have hempty : s.isEmpty = false := by
      cases s with
      | nil => exact absurd rfl hne
      | cons c t => rfl
    simp [List.getD, hempty, archive_fromStr_displayStr a, hsome]

/-- C4 witness: the round-trip at the concrete category `cs.LG`. -/
theorem c4_witness :
    CategoryId.tryFrom (CategoryId.displayStr ⟨.Cs, .Cs, str "LG"⟩) =
      .ok ⟨.Cs, .Cs, str "LG"⟩ :=
  c4_roundtrip_nonempty_subject .Cs (str "LG") ⟨.Cs, .Cs, str "LG"⟩
    (by decide) (by decide)


/-- C8 (amended): `try_new` returns an `Option` (no error values at all) and
succeeds exactly when the subject passes the archive's table check; with the
empty subject it succeeds only for the nine archives whose "table" is the
emptiness test — `Physics` and `CondMat`, despite `can_omit_subjects`, reject
the empty subject because their tables hold only non-empty codes.  The
`ExpectedSubject` error exists only in string parsing (`TryFrom`), and is
produced exactly when the input does not split on `.` into two parts with a
non-empty second part, independent of the archive. -/
theorem c8_tryNew_option_and_expectedSubject :
    (∀ a : Archive, (CategoryId.tryNew a ([] : Str)).isSome = true ↔
        a ∈ [Archive.GrQc, Archive.HepEx, Archive.HepLat, Archive.HepPh,
             Archive.HepTh, Archive.MathPh, Archive.NuclEx, Archive.NuclTh,
             Archive.QuantPh])
    ∧ (∀ s : Str, CategoryId.tryFrom s = .error .ExpectedSubject ↔
        ((splitChar '.' s).length ≠ 2 ∨ (splitChar '.' s).getD 1 [] = [])) := by
  constructor
  · intro a; cases a <;> decide
  · intro s
    unfold CategoryId.tryFrom
    split
    · rename_i h
      simp [h]
    · rename_i h
      have hlen : (splitChar '.' s).length = 2 := by
        by_contra hc; exact h hc
      split
      · rename_i hemp
        have hnil : (splitChar '.' s).getD 1 [] = [] := by
          rcases hl : (splitChar '.' s).getD 1 [] with _ | ⟨c, t⟩
          · rfl
          · rw [hl] at hemp; exact absurd hemp (by simp)
        constructor
        · intro _; exact Or.inr hnil
        · intro _; rfl
      · rename_i hemp
        have h2 : ¬ (splitChar '.' s).getD 1 [] = [] := by
          intro hc
          exact hemp (by rw [hc]; rfl)
        constructor
        · intro hc
          split at hc
          · exact absurd hc (by simp)
          · split at hc <;> exact absurd hc (by simp)
        · intro hc
          rcases hc with hc | hc
          · exact absurd hc h
          · exact absurd hc h2

/-- C8 witness: the gr-qc archive accepts the empty subject through
`try_new`, and the subject-less category text "cs" parses to
`ExpectedSubject`. -/
theorem c8_witness :
    (CategoryId.tryNew .GrQc ([] : Str)).isSome = true
    ∧ CategoryId.tryFrom (str "cs") = .error .ExpectedSubject :=
  ⟨(c8_tryNew_option_and_expectedSubject.1 .GrQc).mpr (by decide),
   (c8_tryNew_option_and_expectedSubject.2 (str "cs")).mpr (by decide)⟩

/-- C6 (amended): `NotEnoughComponents` is returned exactly for inputs with
no space at all (the `splitn(2, ' ')` check), not for "fewer than two
spaces"; for inputs with at least one space the precedence is: identifier
failure first (`InvalidArxivId`), then — only when the remainder starts with
`[` — bracket failure (`InvalidCategory`), then date failure
(`InvalidDate`). -/
theorem c6_error_precedence : ∀ s : Str,
    (ArxivStamp.tryFrom s = .err .NotEnoughComponents ↔ splitOnce ' ' s = none)
    ∧ (∀ (p0 p1 : Str) (e : ArxivIdError), splitOnce ' ' s = some (p0, p1) →
        ArxivId.tryFrom p0 = .err e →
        ArxivStamp.tryFrom s = .err (.InvalidArxivId e))
    ∧ (∀ (p0 p1 : Str) (idv : ArxivId), splitOnce ' ' s = some (p0, p1) →
        ArxivId.tryFrom p0 = .ok idv → startsBracket p1 = true →
        parseBrackets (stampCatComp p1) = .error () →
        ArxivStamp.tryFrom s = .err .InvalidCategory) := by
  intro s
  refine ⟨?_, ?_, ?_⟩
  · unfold ArxivStamp.tryFrom
    cases h : splitOnce ' ' s with
    | none => simp
    | some p =>
      obtain ⟨p0, p1⟩ := p
      constructor
      · intro hc
        repeat' split at hc
        all_goals try assumption
        all_goals exact absurd hc (by simp)
      · intro hc
        exact absurd hc (by simp)
  · intro p0 p1 e h1 h2
    unfold ArxivStamp.tryFrom
    rw [h1]
    simp [h2]
  · intro p0 p1 idv h1 h2 h3 h4
    unfold ArxivStamp.tryFrom
    rw [h1]
    simp [h2, h3, h4]

/-- C6 witness: an identifier failure on a one-space input surfaces as
`InvalidArxivId`, and a malformed bracket (the spec's own example) as
`InvalidCategory`. -/
theorem c6_witness :
    ArxivStamp.tryFrom (str "x 1") =
      .err (.InvalidArxivId .ExpectedBeginningLiteral)
    ∧ ArxivStamp.tryFrom (str "arXiv:2001.00001 [cs.LG 1 Jan 2000") =
        .err .InvalidCategory :=
  ⟨(c6_error_precedence (str "x 1")).2.1 (str "x") (str "1")
      .ExpectedBeginningLiteral (by decide) (by decide),
   (c6_error_precedence (str "arXiv:2001.00001 [cs.LG 1 Jan 2000")).2.2
      (str "arXiv:2001.00001") (str "[cs.LG 1 Jan 2000")
      ⟨2020, 1, str "00001", .Latest⟩ (by decide) (by decide) (by decide)
      (by decide)⟩

/-- C7 (amended): the bracketed category is optional, not mandatory: when
the text after the first space does not start with `[`, the parser treats it
as the date and, if the identifier and date are valid, succeeds with an
absent category (matching the repository's test
`parse_stamp_without_category`). -/
theorem c7_no_bracket_parses_without_category :
    ∀ (s p0 p1 : Str) (idv : ArxivId) (d : Date),
      splitOnce ' ' s = some (p0, p1) →
      ArxivId.tryFrom p0 = .ok idv →
      startsBracket p1 = false →
      parseDate p1 = .ok d →
      ArxivStamp.tryFrom s = .ok ⟨idv, none, d⟩ := by
  intro s p0 p1 idv d h1 h2 h3 h4
  unfold ArxivStamp.tryFrom
  rw [h1]
  simp [h2, h3, h4]

/-- C7 witness: the concrete category-less stamp
"arXiv:2011.00001 1 Jan 2011". -/
theorem c7_witness :
    ArxivStamp.tryFrom (str "arXiv:2011.00001 1 Jan 2011") =
      .ok ⟨⟨2020, 11, str "00001", .Latest⟩, none, ⟨2011, .January, 1⟩⟩ :=
  c7_no_bracket_parses_without_category (str "arXiv:2011.00001 1 Jan 2011")
    (str "arXiv:2011.00001") (str "1 Jan 2011")
    ⟨2020, 11, str "00001", .Latest⟩ ⟨2011, .January, 1⟩
    (by decide) (by decide) (by decide) (by decide)


/-- C9: the text remaining after the article number parses as a version
exactly when it is empty (giving `Latest`) or a literal `v` followed by one
or more ASCII digits whose value fits in 8 bits (giving `Num`); every other
remainder — including trailing text after the number or after the version
digits — is a syntax error, which `ArticleIdParser::parse` surfaces as
`InvalidVersion`. -/
theorem c9_version_tail_grammar :
    (∀ s : Str, ArticleVersion.fromStr s = .ok .Latest ↔ s = [])
    ∧ (∀ (s : Str) (n : Nat), ArticleVersion.fromStr s = .ok (.Num n) ↔
        ∃ ds : Str, s = 'v' :: ds ∧ ds ≠ [] ∧ ds.all Char.isDigit = true
          ∧ digitsToNat ds = n ∧ n ≤ 255)
    ∧ (∀ s : Str, ArticleVersion.fromStr s = .error () ↔
        (s ≠ [] ∧ ¬ ∃ ds : Str, s = 'v' :: ds ∧ ds ≠ []
          ∧ ds.all Char.isDigit = true ∧ digitsToNat ds ≤ 255))
    ∧ ArticleIdV2.tryFromStr (str "arXiv:0706.0001x") = .err .InvalidVersion
    ∧ ArticleIdV2.tryFromStr (str "arXiv:0706.0001v1x") = .err .InvalidVersion
    ∧ ArticleIdV2.tryFromStr (str "arXiv:0706.0001v999") =
        .err .InvalidVersion := by
  have hu8 : ∀ (ds : Str) (m : Nat), parseU8 ds = some m ↔
      ds ≠ [] ∧ ds.all Char.isDigit = true ∧ digitsToNat ds = m ∧ m ≤ 255 := by
    intro ds m
    unfold parseU8
    exact parseBoundedNat_eq_some_iff
  refine ⟨?_, ?_, ?_, by decide, by decide, by decide⟩
  · intro s
    unfold ArticleVersion.fromStr
    split
    · simp
    · rename_i ds
      split
      · rename_i m hsome
        constructor
        · intro hc; exact absurd hc (by simp)
        · intro hc; exact absurd hc (by simp)
      · rename_i hnone
        constructor
        · intro hc; exact absurd hc (by simp)
        · intro hc; exact absurd hc (by simp)
    · rename_i hni hnv
      constructor
      · intro hc; exact absurd hc (by simp)
      · intro hc; exact absurd (hni hc) id
  · intro s n
    unfold ArticleVersion.fromStr
    split
    · simp
    · rename_i ds
      split
      · rename_i m hsome
        rw [hu8] at hsome
        obtain ⟨hds, hdig, hval, hle⟩ := hsome
        constructor
        · intro hc
          have hmn : m = n := by
            simpa using hc
          subst hmn
          exact ⟨ds, rfl, hds, hdig, hval, hle⟩
        · rintro ⟨ds2, heq, hne2, hdig2, hval2, hle2⟩
          have hds2 : ds = ds2 := by
            injection heq
          subst hds2
          rw [hval] at hval2
          rw [hval2]
      · rename_i hnone
        constructor
        · intro hc; exact absurd hc (by simp)
        · rintro ⟨ds2, heq, hne2, hdig2, hval2, hle2⟩
          have hds2 : ds = ds2 := by
            injection heq
          subst hds2
          have hps : parseU8 ds = some (digitsToNat ds) :=
            (hu8 ds (digitsToNat ds)).mpr ⟨hne2, hdig2, rfl, hval2 ▸ hle2⟩
          rw [hps] at hnone
          exact absurd hnone (by simp)
    · rename_i hni hnv
      constructor
      · intro hc; exact absurd hc (by simp)
      · rintro ⟨ds2, heq, _, _, _, _⟩
        exact absurd (hnv ds2 heq) id
  · intro s
    unfold ArticleVersion.fromStr
    split
    · rename_i hsnil
      constructor
      · intro hc; exact absurd hc (by simp)
      · rintro ⟨hne, _⟩; exact absurd rfl hne
    · rename_i ds
      split
      · rename_i m hsome
        rw [hu8] at hsome
        obtain ⟨hds, hdig, hval, hle⟩ := hsome
        constructor
        · intro hc; exact absurd hc (by simp)
        · rintro ⟨_, hno⟩
          exact absurd ⟨ds, rfl, hds, hdig, hval ▸ hle⟩ hno
      · rename_i hnone
        constructor
        · intro _
          refine ⟨by simp, ?_⟩
          rintro ⟨ds2, heq, hne2, hdig2, hle2⟩
          have hds2 : ds = ds2 := by
            injection heq
          subst hds2
          have hps : parseU8 ds = some (digitsToNat ds) :=
            (hu8 ds (digitsToNat ds)).mpr ⟨hne2, hdig2, rfl, hle2⟩
          rw [hps] at hnone
          exact absurd hnone (by simp)
        · intro _; rfl
    · rename_i hni hnv
      constructor
      · intro _
        refine ⟨fun hc => absurd (hni hc) id, ?_⟩
        rintro ⟨ds2, heq, _, _, _⟩
        exact absurd (hnv ds2 heq) id
      · intro _; rfl

/-- C9 witness: concrete instances of all three grammar clauses. -/
theorem c9_witness :
    ArticleVersion.fromStr [] = .ok .Latest
    ∧ ArticleVersion.fromStr (str "v1") = .ok (.Num 1)
    ∧ ArticleVersion.fromStr (str "x") = .error () :=
  ⟨(c9_version_tail_grammar.1 []).mpr rfl,
   (c9_version_tail_grammar.2.1 (str "v1") 1).mpr
     ⟨str "1", rfl, by decide, by decide, by decide, by decide⟩,
   (c9_version_tail_grammar.2.2.1 (str "x")).mpr
     ⟨by decide, fun hex => by
        rcases hex with ⟨ds, heq, _⟩
        have heq2 : ('x' :: [] : Str) = 'v' :: ds := heq
        injection heq2 with h1 _
        exact absurd h1 (by decide)⟩⟩

end Arxiv
